import Mathlib

set_option linter.unusedSectionVars false

/-!
Verification development for the levity sync library: a shallow embedding of
its core components (StateManager, PersistQueue, SyncEngine, createStore) and
proofs about them. JavaScript objects are modelled as association lists from
field names to values; object spread, key lookup and key assignment are
modelled by the functions below. Asynchronous effects (chrome.storage reads
and writes, timers, callbacks) are modelled by explicit parameters for the
environment behaviour and explicit result fields recording the effects each
operation performs.
-/

namespace Levity

/-- Model of a JavaScript object: an ordered association list from field
names to values. The value type is a parameter with decidable equality,
standing in for identity comparison via Object.is. Values of real objects
are never the undefined value, so key absence models undefined. -/
abbrev Obj (V : Type) := List (String × V)

variable {V : Type} [DecidableEq V]

/-- Model of property access obj[k]: the value at the first occurrence of
key k, or none when the key is absent (undefined). -/
def Obj.get : Obj V → String → Option V
  | [], _ => none
  | (k', v) :: rest, k => if k' = k then some v else Obj.get rest k

/-- Model of the key-presence test: true when the key is present in the
object. -/
def Obj.hasKey (o : Obj V) (k : String) : Bool :=
  (Obj.get o k).isSome

/-- Model of property assignment obj[k] = v: replaces the value at an
existing key in place, or appends a new key at the end, matching the key
ordering of JavaScript objects. -/
def Obj.insert : Obj V → String → V → Obj V
  | [], k, v => [(k, v)]
  | (k', v') :: rest, k, v =>
      if k' = k then (k, v) :: rest else (k', v') :: Obj.insert rest k v

/-- Model of the object spread expression with a on the left and b on the
right: every key of a appears first, in order, carrying the value from b
when b also has that key; then the keys of b that are absent from a follow,
in order. This is exactly the JavaScript semantics of spreading a then b. -/
def Obj.merge (a b : Obj V) : Obj V :=
  a.map (fun p => (p.1, (Obj.get b p.1).getD p.2)) ++
    b.filter (fun p => !(Obj.hasKey a p.1))

/-- Per-field inputs handed to a user-supplied conflict resolver. The source
fields are named local and remote; local is a reserved word in Lean, so the
fields are called localValue and remoteValue here. -/
structure ConflictContext (V : Type) where
  localValue : V
  remoteValue : V
  key : String
  localUpdatedAt : Nat
  remoteUpdatedAt : Nat

namespace SyncEngine

/-- Model of new Set of the keys of local followed by the keys of remote:
the keys of local in order, then the keys of remote that are absent from
local, in order. JavaScript objects never carry duplicate keys, so this is
exactly the insertion order of the Set. -/
def allKeys (loc rem : Obj V) : List String :=
  loc.map Prod.fst ++ (rem.map Prod.fst).filter (fun k => !(Obj.hasKey loc k))

/-- Model of SyncEngine.resolveConflicts. With no onConflict resolver the
whole remote snapshot is spread over the whole local snapshot. With a
resolver, every key of either snapshot is processed: a key absent locally
takes the remote value, a key absent remotely keeps the local value, a key
with identical values keeps the value, and a genuinely conflicting key gets
the resolver result on the conflict context. localUpdatedAt is the engine
recorded local meta timestamp and now stands for Date.now at resolution
time. -/
def resolveConflicts (onConflict : Option (ConflictContext V → V))
    (localUpdatedAt now : Nat) (loc rem : Obj V) : Obj V :=
  match onConflict with
  | none => Obj.merge loc rem
  | some resolver =>
      (allKeys loc rem).filterMap (fun k =>
        match Obj.get loc k, Obj.get rem k with
        | none, none => none
        | none, some remoteValue => some (k, remoteValue)
        | some localValue, none => some (k, localValue)
        | some localValue, some remoteValue =>
            if localValue = remoteValue then some (k, localValue)
            else some (k, resolver
              { localValue := localValue, remoteValue := remoteValue, key := k,
                localUpdatedAt := localUpdatedAt, remoteUpdatedAt := now }))

end SyncEngine

/-- Origin tag of a state change: the source strings local and remote of the
code. -/
inductive ChangeSource where
  | localSource
  | remoteSource
deriving DecidableEq, Repr

/-- A per-key subscriber callback. The Except result models a callback body
that may throw: ok is a normal return and error is a thrown value. -/
abbrev KeySubscriber (V : Type) := V → ChangeSource → Except String Unit

/-- A whole-state subscriber callback, receiving the full state, the changed
key list and the source. -/
abbrev AllSubscriber (V : Type) := Obj V → List String → ChangeSource → Except String Unit

/-- The registered subscribers of a StateManager: per-key subscriber lists
and the whole-state subscriber list, in subscription order. -/
structure Subscribers (V : Type) where
  keySubs : String → List (KeySubscriber V)
  allSubs : List (AllSubscriber V)

namespace StateManager

/-- The state effect of StateManager.update: a no-op when the new value is
identity-equal to the current value, otherwise key assignment. -/
def updateState (st : Obj V) (key : String) (value : V) : Obj V :=
  if Obj.get st key = some value then st else Obj.insert st key value

/-- Model of the shared notification loop shape of notifyKey and notifyAll:
every callback is invoked inside try/catch, a thrown error is caught and
logged and the loop continues with the next subscriber. Returns how many
callbacks were invoked and the logged errors in order. -/
def notifyLoop {α : Type} (invoke : α → Except String Unit)
    (subs : List α) : Nat × List String :=
  subs.foldl (fun acc cb =>
    match invoke cb with
    | .ok _ => (acc.1 + 1, acc.2)
    | .error e => (acc.1 + 1, acc.2 ++ [e])) (0, [])

/-- Model of the notifyKey loop over the per-key subscribers of one key. -/
def notifyKey (subs : List (KeySubscriber V)) (value : V)
    (source : ChangeSource) : Nat × List String :=
  notifyLoop (fun cb => cb value source) subs

/-- Model of the notifyAll loop over the whole-state subscribers. -/
def notifyAll (subs : List (AllSubscriber V)) (state : Obj V)
    (changedKeys : List String) (source : ChangeSource) : Nat × List String :=
  notifyLoop (fun cb => cb state changedKeys source) subs

/-- Result of one StateManager operation: the new state, how many subscriber
callbacks ran and which errors were caught and logged. -/
structure UpdateResult (V : Type) where
  state : Obj V
  callbacksRun : Nat
  errorsLogged : List String
deriving Repr

/-- Model of StateManager.update: if the new value is identity-equal to the
current one, return immediately with no notification; otherwise assign the
key, then run the per-key subscribers of that key, then the whole-state
subscribers with changed list [key]. -/
def update (subs : Subscribers V) (st : Obj V) (key : String) (value : V)
    (source : ChangeSource) : UpdateResult V :=
  if Obj.get st key = some value then ⟨st, 0, []⟩
  else
    let st' := Obj.insert st key value
    let nk := notifyKey (subs.keySubs key) value source
    let na := notifyAll subs.allSubs st' [key] source
    ⟨st', nk.1 + na.1, nk.2 ++ na.2⟩

/-- The state effect of StateManager.updateMultiple: each entry of the
partial object is applied with the same identity check as update. -/
def updateMultipleState (st : Obj V) (partialObj : Obj V) : Obj V :=
  partialObj.foldl (fun s kv => updateState s kv.1 kv.2) st

/-- One StateManager mutation, for reasoning about operation sequences. -/
inductive StateOp (V : Type) where
  | update (key : String) (value : V)
  | updateMultiple (partialObj : Obj V)
  | replaceState (newState : Obj V)

/-- The state effect of one StateManager operation. update and
updateMultiple assign keys in place; replaceState replaces the whole state
object with a copy of its argument. -/
def applyOp (st : Obj V) : StateOp V → Obj V
  | .update k v => updateState st k v
  | .updateMultiple p => updateMultipleState st p
  | .replaceState s => s

/-- The state after a sequence of StateManager operations. -/
def applyOps (st : Obj V) (ops : List (StateOp V)) : Obj V :=
  ops.foldl applyOp st

end StateManager

namespace PersistQueue

/-- The mutable fields of a PersistQueue that the claims depend on: the
pending buffer and the single-flight flag. The debounce timer is not part
of the state because queue and flush are modelled as being called directly;
queue itself never writes to storage, it only merges into the buffer and
re-arms the timer. -/
structure PQState (V : Type) where
  pendingData : Option (Obj V)
  isFlushing : Bool
deriving Repr

/-- A freshly constructed PersistQueue: no pending data, not flushing. -/
def initial : PQState V := ⟨none, false⟩

/-- Model of PersistQueue.queue: spread the new partial data over the
current pending buffer (later fields overwrite earlier ones) and re-arm the
debounce timer. No storage write happens here. -/
def queue (st : PQState V) (data : Obj V) : PQState V :=
  { st with pendingData := some (Obj.merge (st.pendingData.getD []) data) }

/-- Outcome of the retry loop of flush: either some attempt succeeded and
wrote the given merged value, or every attempt failed and the last error is
recorded (none only in the degenerate case of zero attempts, where the code
would pass null to onError). -/
inductive FlushOutcome (V : Type) where
  | success (written : Obj V)
  | failure (lastError : Option String)

/-- Model of the retry loop inside flush. outcomes gives, per attempt
index, none when that attempt (read, merge, write) succeeds and some error
when it throws. writeVal is the merged value a successful attempt writes:
failed attempts write nothing, so the remote read is the same on every
attempt absent a concurrent writer. Returns the outcome and the number of
attempts made. -/
def flushLoop (outcomes : Nat → Option String) (writeVal : Obj V) :
    Nat → Nat → Option String → FlushOutcome V × Nat
  | _, 0, lastE => (.failure lastE, 0)
  | attempt, rem + 1, _ =>
      match outcomes attempt with
      | none => (.success writeVal, 1)
      | some e =>
          let r := flushLoop outcomes writeVal (attempt + 1) rem (some e)
          (r.1, r.2 + 1)

/-- The observable effects of one flush call: the values written under the
state key in order, the number of attempts made, and the onError and
console-log invocations (each carrying the final error). -/
structure FlushEffects (V : Type) where
  writes : List (Obj V)
  attempts : Nat
  onErrorCalls : List (Option String)
  logCalls : List (Option String)

/-- Model of PersistQueue.flush. Returns without effect when there is no
pending buffer or a flush is in flight. Otherwise snapshots and clears the
buffer, then attempts up to maxRetries times to read the remote state,
spread the snapshot over it and write the result back. On success the
pending buffer is whatever was queued during the flush. If every attempt
fails, the snapshot is spread under the data queued during the flush and
put back as the pending buffer, and onError (or the default log) receives
the final error. remote is the stored value at the state key, queuedDuring
is the pending data accumulated by queue calls while the flush awaited. -/
def flush (maxRetries : Nat) (hasOnError : Bool) (st : PQState V)
    (remote : Obj V) (outcomes : Nat → Option String)
    (queuedDuring : Option (Obj V)) : PQState V × FlushEffects V :=
  match st.pendingData with
  | none => (st, ⟨[], 0, [], []⟩)
  | some dataToWrite =>
      if st.isFlushing then (st, ⟨[], 0, [], []⟩)
      else
        let writeVal := Obj.merge remote dataToWrite
        match flushLoop outcomes writeVal 0 maxRetries none with
        | (.success w, n) =>
            (⟨queuedDuring, false⟩, ⟨[w], n, [], []⟩)
        | (.failure lastE, n) =>
            (⟨some (Obj.merge dataToWrite (queuedDuring.getD [])), false⟩,
             ⟨[], n, if hasOnError then [lastE] else [],
               if hasOnError then [] else [lastE]⟩)

/-- Model of PersistQueue.hasPending. -/
def hasPending (st : PQState V) : Bool :=
  st.pendingData.isSome

end PersistQueue

/-- Model of a chrome.storage change record for one key. -/
structure StorageChange (V : Type) where
  oldValue : Option (Obj V)
  newValue : Option (Obj V)
deriving DecidableEq

/-- The mutable fields of a SyncEngine: the echo-suppression guard, whether
the change listener is registered, and the locally recorded meta
timestamp. -/
structure SyncEngineState where
  isApplyingRemote : Bool
  hasListener : Bool
  localUpdatedAt : Nat
deriving DecidableEq, Repr

/-- One event visible to the SyncEngine: a storage change notification, the
firing of a scheduled guard-reset timeout, a markLocalWrite call, or an
updateLocalMeta call. -/
inductive SyncEvent (V : Type) where
  | storageChanged (changes : List (String × StorageChange V))
      (areaName : String) (now : Nat)
  | suppressionTimerFires
  | markLocalWrite
  | updateLocalMeta (now : Nat)
deriving DecidableEq

/-- Result of processing one SyncEngine event: the new engine state, the new
StateManager state, the replaceState calls made with source remote (their
arguments, in order), and the delays of the guard-reset timeouts scheduled
by this event. -/
structure SyncStepResult (V : Type) where
  engine : SyncEngineState
  state : Obj V
  replaceCalls : List (Obj V)
  scheduledResets : List Nat

namespace SyncEngine

/-- Model of SyncEngine.handleRemoteChange: a notification without a new
value is dropped; otherwise conflicts between the current local snapshot
and the incoming remote snapshot are resolved and the resolved state is
applied via replaceState with source remote, with the guard set and a 100ms
reset scheduled. -/
def handleRemoteChange (onConflict : Option (ConflictContext V → V))
    (eng : SyncEngineState) (st : Obj V) (change : StorageChange V)
    (now : Nat) : SyncStepResult V :=
  match change.newValue with
  | none => ⟨eng, st, [], []⟩
  | some remoteState =>
      let resolvedState :=
        resolveConflicts onConflict eng.localUpdatedAt now st remoteState
      ⟨{ eng with isApplyingRemote := true }, resolvedState, [resolvedState], [100]⟩

/-- Model of one SyncEngine event step. A storage notification is processed
only when the listener is registered, the area is sync, the changed-key map
contains the storage key, and the echo-suppression guard is clear.
markLocalWrite sets the guard and schedules a 1000ms reset; a firing reset
timeout clears the guard; updateLocalMeta stamps the local timestamp. -/
def step (onConflict : Option (ConflictContext V → V)) (storageKey : String)
    (eng : SyncEngineState) (st : Obj V) : SyncEvent V → SyncStepResult V
  | .storageChanged changes areaName now =>
      if !eng.hasListener then ⟨eng, st, [], []⟩
      else if areaName ≠ "sync" then ⟨eng, st, [], []⟩
      else
        match Obj.get changes storageKey with
        | none => ⟨eng, st, [], []⟩
        | some change =>
            if eng.isApplyingRemote then ⟨eng, st, [], []⟩
            else handleRemoteChange onConflict eng st change now
  | .suppressionTimerFires => ⟨{ eng with isApplyingRemote := false }, st, [], []⟩
  | .markLocalWrite => ⟨{ eng with isApplyingRemote := true }, st, [], [1000]⟩
  | .updateLocalMeta now => ⟨{ eng with localUpdatedAt := now }, st, [], []⟩

/-- Accumulated result of processing a sequence of SyncEngine events. -/
def runEvents (onConflict : Option (ConflictContext V → V)) (storageKey : String)
    (eng : SyncEngineState) (st : Obj V) (events : List (SyncEvent V)) :
    SyncStepResult V :=
  events.foldl (fun acc ev =>
    let r := step onConflict storageKey acc.engine acc.state ev
    ⟨r.engine, r.state, acc.replaceCalls ++ r.replaceCalls,
      acc.scheduledResets ++ r.scheduledResets⟩)
    ⟨eng, st, [], []⟩

/-- Model of SyncEngine.start: registering the change listener, a no-op when
already started. -/
def start (eng : SyncEngineState) : SyncEngineState :=
  if eng.hasListener then eng else { eng with hasListener := true }

end SyncEngine

/-- The published byte ceiling of the chrome.storage.sync area. -/
def CHROME_SYNC_QUOTA : Nat := 102400

/-- Default quota warning threshold, in percent. -/
def DEFAULT_QUOTA_WARNING : Nat := 80

/-- Default debounce delay of createStore, in milliseconds. -/
def DEFAULT_DEBOUNCE : Nat := 300

/-- Quota information returned by getQuota. -/
structure QuotaInfo where
  used : Nat
  total : Nat
  percent : ℚ
deriving DecidableEq, Repr

/-- Model of getQuota: reports the bytes in use, the fixed total capacity,
and the usage percentage rounded to one decimal place exactly as the code
computes it, Math.round of used over total times 100 times 10, divided by
10. Math.round on a nonnegative value is floor of the value plus one half,
which is what round means here. -/
def getQuota (used : Nat) : QuotaInfo :=
  { used := used
    total := CHROME_SYNC_QUOTA
    percent := ((round (((used : ℚ) / (CHROME_SYNC_QUOTA : ℚ)) * 100 * 10) : ℤ) : ℚ) / 10 }

/-- Model of checkQuota: returns the quota warning invocations it performs.
Without a configured onQuotaWarning callback it returns immediately; with
one, it reads the quota and warns exactly when the percentage reaches the
threshold. Any error thrown while reading the quota is swallowed, so the
function never propagates a failure to its caller. bytesInUse models the
chrome.storage.sync.getBytesInUse call, which may throw. -/
def checkQuota (hasOnQuotaWarning : Bool) (quotaThreshold : ℚ)
    (bytesInUse : Except String Nat) : List QuotaInfo :=
  if !hasOnQuotaWarning then []
  else
    match bytesInUse with
    | .error _ => []
    | .ok used =>
        let quota := getQuota used
        if quota.percent ≥ quotaThreshold then [quota] else []

namespace createStore

/-- Result of an init call: the StateManager state, the ready flag, the
engine state, and how many quota checks were performed. -/
structure InitResult (V : Type) where
  state : Obj V
  isReady : Bool
  engine : SyncEngineState
  quotaChecks : Nat

/-- Model of init of the store facade. readResult models the initial
chrome.storage.sync.get of the state key: an error means the read threw,
ok none means nothing was stored, ok some s means s was stored. On success
the stored state is spread over the initial defaults and applied, the
engine is started and one quota check runs. On failure the error is logged
and the store still becomes ready with the defaults, without starting the
engine or checking the quota. -/
def init (initialState : Obj V) (eng : SyncEngineState)
    (readResult : Except String (Option (Obj V))) : InitResult V :=
  match readResult with
  | .error _ => ⟨initialState, true, eng, 0⟩
  | .ok storedState =>
      match storedState with
      | some s => ⟨Obj.merge initialState s, true, SyncEngine.start eng, 1⟩
      | none => ⟨initialState, true, SyncEngine.start eng, 1⟩

/-- The combined state of the three components behind the store facade. -/
structure StoreState (V : Type) where
  state : Obj V
  engine : SyncEngineState
  pq : PersistQueue.PQState V

/-- Model of store.set: update the in-memory state with source local, stamp
the local meta, open the echo-suppression window, queue the single-field
partial, flush immediately, then check the quota. The environment
parameters describe the remote store behaviour during the flush and the
quota read. Returns the new component states, the update result, the flush
effects and the quota warnings, in program order. -/
def set (subs : Subscribers V) (maxRetries : Nat) (hasOnError : Bool)
    (hasOnQuotaWarning : Bool) (quotaThreshold : ℚ) (st : StoreState V)
    (key : String) (value : V) (now : Nat) (remote : Obj V)
    (outcomes : Nat → Option String) (queuedDuring : Option (Obj V))
    (bytesInUse : Except String Nat) :
    StoreState V × StateManager.UpdateResult V × PersistQueue.FlushEffects V × List QuotaInfo :=
  let u := StateManager.update subs st.state key value .localSource
  let eng1 := { st.engine with localUpdatedAt := now }
  let eng2 := { eng1 with isApplyingRemote := true }
  let pq1 := PersistQueue.queue st.pq [(key, value)]
  let fr := PersistQueue.flush maxRetries hasOnError pq1 remote outcomes queuedDuring
  let warnings := checkQuota hasOnQuotaWarning quotaThreshold bytesInUse
  (⟨u.state, eng2, fr.1⟩, u, fr.2, warnings)

/-- Model of store.setAll: like set but with a partial object through
updateMultiple. Only the state effect of updateMultiple is tracked here. -/
def setAll (maxRetries : Nat) (hasOnError : Bool)
    (hasOnQuotaWarning : Bool) (quotaThreshold : ℚ) (st : StoreState V)
    (partialObj : Obj V) (now : Nat) (remote : Obj V)
    (outcomes : Nat → Option String) (queuedDuring : Option (Obj V))
    (bytesInUse : Except String Nat) :
    StoreState V × PersistQueue.FlushEffects V × List QuotaInfo :=
  let st' := StateManager.updateMultipleState st.state partialObj
  let eng1 := { st.engine with localUpdatedAt := now }
  let eng2 := { eng1 with isApplyingRemote := true }
  let pq1 := PersistQueue.queue st.pq partialObj
  let fr := PersistQueue.flush maxRetries hasOnError pq1 remote outcomes queuedDuring
  let warnings := checkQuota hasOnQuotaWarning quotaThreshold bytesInUse
  (⟨st', eng2, fr.1⟩, fr.2, warnings)

end createStore

/-! Lemmas about the object model. -/

@[simp] theorem Obj.get_nil (k : String) : Obj.get ([] : Obj V) k = none := rfl

@[simp] theorem Obj.get_cons (k' : String) (v : V) (rest : Obj V) (k : String) :
    Obj.get ((k', v) :: rest) k = if k' = k then some v else Obj.get rest k := rfl

@[simp] theorem Obj.hasKey_nil (k : String) : Obj.hasKey ([] : Obj V) k = false := rfl

theorem Obj.get_append (a b : Obj V) (k : String) :
    Obj.get (a ++ b) k = (Obj.get a k).or (Obj.get b k) := by
  induction a with
  | nil => simp
  | cons p rest ih =>
      obtain ⟨k', v⟩ := p
      by_cases h : k' = k <;> simp [h, ih]

theorem Obj.get_mapOverride (a b : Obj V) (k : String) :
    Obj.get (a.map (fun p => (p.1, (Obj.get b p.1).getD p.2))) k =
      (Obj.get a k).map (fun v => (Obj.get b k).getD v) := by
  induction a with
  | nil => simp
  | cons p rest ih =>
      obtain ⟨k', v⟩ := p
      by_cases h : k' = k
      · subst h; simp
      · simp [h, ih]

theorem Obj.get_filterKey (b : Obj V) (q : String → Bool) (k : String) :
    Obj.get (b.filter (fun p => q p.1)) k =
      if q k then Obj.get b k else none := by
  induction b with
  | nil => simp
  | cons p rest ih =>
      obtain ⟨k', v⟩ := p
      by_cases h : k' = k
      · subst h
        by_cases hq : q k' <;> simp [hq, List.filter_cons, ih]
      · by_cases hq : q k' <;> simp [hq, List.filter_cons, ih, h]

/-- Key lookup in a merged object: the right (later-spread) object wins on
any shared key; otherwise the left value shows through. -/
theorem Obj.get_merge (a b : Obj V) (k : String) :
    Obj.get (Obj.merge a b) k = (Obj.get b k).or (Obj.get a k) := by
  unfold Obj.merge
  rw [Obj.get_append, Obj.get_mapOverride,
    Obj.get_filterKey b (fun s => !(Obj.hasKey a s)) k]
  cases ha : Obj.get a k with
  | none => simp [Obj.hasKey, ha]
  | some v =>
      cases hb : Obj.get b k with
      | none => simp [Obj.hasKey, ha, hb]
      | some w => simp [Obj.hasKey, ha, hb]

theorem Obj.hasKey_merge (a b : Obj V) (k : String) :
    Obj.hasKey (Obj.merge a b) k = (Obj.hasKey a k || Obj.hasKey b k) := by
  unfold Obj.hasKey
  rw [Obj.get_merge]
  cases Obj.get a k <;> cases Obj.get b k <;> simp

@[simp] theorem Obj.merge_nil_left (b : Obj V) : Obj.merge ([] : Obj V) b = b := by
  unfold Obj.merge
  simp [Obj.hasKey]

@[simp] theorem Obj.merge_nil_right (a : Obj V) : Obj.merge a ([] : Obj V) = a := by
  unfold Obj.merge
  simp [Obj.get]

theorem Obj.get_insert (o : Obj V) (k : String) (v : V) (k' : String) :
    Obj.get (Obj.insert o k v) k' = if k = k' then some v else Obj.get o k' := by
  induction o with
  | nil => simp [Obj.insert]
  | cons p rest ih =>
      obtain ⟨k₀, v₀⟩ := p
      by_cases hk : k₀ = k
      · subst hk
        by_cases hkk : k₀ = k' <;> simp [Obj.insert, hkk]
      · by_cases hk' : k₀ = k'
        · subst hk'
          have hne : ¬ k = k₀ := fun hh => hk hh.symm
          simp [Obj.insert, hk, hne]
        · simp [Obj.insert, hk, hk', ih]

theorem Obj.hasKey_insert (o : Obj V) (k : String) (v : V) (k' : String) :
    Obj.hasKey (Obj.insert o k v) k' = (k = k' || Obj.hasKey o k') := by
  unfold Obj.hasKey
  rw [Obj.get_insert]
  by_cases h : k = k' <;> simp [h]

theorem Obj.filterKey_map_comm (b : Obj V) (f : String → V → V) (q : String → Bool) :
    (b.filter (fun p => q p.1)).map (fun p => (p.1, f p.1 p.2)) =
      (b.map (fun p => (p.1, f p.1 p.2))).filter (fun p => q p.1) := by
  induction b with
  | nil => simp
  | cons p rest ih =>
      obtain ⟨k, v⟩ := p
      by_cases hq : q k <;> simp [List.filter_cons, hq, ih]

theorem Obj.mapOverride_merge (a b c : Obj V) :
    (Obj.merge a b).map (fun p => (p.1, (Obj.get c p.1).getD p.2)) =
      a.map (fun p => (p.1, (Obj.get (Obj.merge b c) p.1).getD p.2)) ++
        (b.map (fun p => (p.1, (Obj.get c p.1).getD p.2))).filter
          (fun p => !(Obj.hasKey a p.1)) := by
  show ((a.map (fun p => (p.1, (Obj.get b p.1).getD p.2)) ++
      b.filter (fun p => !(Obj.hasKey a p.1))).map
        (fun p => (p.1, (Obj.get c p.1).getD p.2))) = _
  rw [List.map_append, List.map_map]
  congr 1
  · apply List.map_congr_left
    intro p _
    cases hb : Obj.get b p.1 <;> cases hc : Obj.get c p.1 <;>
      simp [Function.comp, Obj.get_merge, hb, hc]
  · exact Obj.filterKey_map_comm b (fun s v => (Obj.get c s).getD v)
      (fun s => !(Obj.hasKey a s))

/-- Object spread is associative: spreading a, b, c in order gives the same
object no matter how the spreads are grouped. -/
theorem Obj.merge_assoc (a b c : Obj V) :
    Obj.merge (Obj.merge a b) c = Obj.merge a (Obj.merge b c) := by
  show (Obj.merge a b).map (fun p => (p.1, (Obj.get c p.1).getD p.2)) ++
      c.filter (fun p => !(Obj.hasKey (Obj.merge a b) p.1)) =
    a.map (fun p => (p.1, (Obj.get (Obj.merge b c) p.1).getD p.2)) ++
      (Obj.merge b c).filter (fun p => !(Obj.hasKey a p.1))
  rw [Obj.mapOverride_merge, List.append_assoc]
  congr 1
  have hc : c.filter (fun p => !(Obj.hasKey (Obj.merge a b) p.1)) =
      (c.filter (fun p => !(Obj.hasKey b p.1))).filter
        (fun p => !(Obj.hasKey a p.1)) := by
    rw [List.filter_filter]
    apply List.filter_congr
    intro p _
    rw [Obj.hasKey_merge]
    cases ha : Obj.hasKey a p.1 <;> cases hb : Obj.hasKey b p.1 <;> simp [ha, hb]
  rw [hc, ← List.filter_append]
  rfl

theorem Obj.merge_foldl (r x : Obj V) (ps : List (Obj V)) :
    Obj.merge r (ps.foldl Obj.merge x) = ps.foldl Obj.merge (Obj.merge r x) := by
  induction ps generalizing x with
  | nil => rfl
  | cons p rest ih =>
      simp only [List.foldl_cons]
      rw [ih, Obj.merge_assoc]

theorem Obj.hasKey_iff_mem_keys (o : Obj V) (k : String) :
    Obj.hasKey o k = true ↔ k ∈ o.map Prod.fst := by
  induction o with
  | nil => simp [Obj.hasKey]
  | cons p rest ih =>
      obtain ⟨k', v⟩ := p
      by_cases h : k' = k
      · subst h; simp [Obj.hasKey]
      · simp only [Obj.hasKey, Obj.get_cons, if_neg h, List.map_cons,
          List.mem_cons]
        rw [← Obj.hasKey] at *
        constructor
        · intro hh; exact Or.inr (ih.mp hh)
        · rintro (hh | hh)
          · exact absurd hh.symm h
          · exact ih.mpr hh

/-- If a list of entries is built keyed by a list of names, with each name
producing at most one entry carrying that same name, then lookup in the
built list returns exactly what the builder produced for the looked-up
name. -/
theorem Obj.get_filterMapKeyed (ks : List String) (f : String → Option (String × V))
    (hf : ∀ k p, f k = some p → p.1 = k) (k : String) :
    Obj.get (ks.filterMap f) k = if k ∈ ks then (f k).map Prod.snd else none := by
  induction ks with
  | nil => simp
  | cons k₀ rest ih =>
      cases hf0 : f k₀ with
      | none =>
          simp only [List.filterMap_cons, hf0]
          rw [ih]
          by_cases hk : k = k₀
          · subst hk
            simp [hf0]
          · simp [List.mem_cons, hk]
      | some p =>
          obtain ⟨k₁, v⟩ := p
          have hp : k₁ = k₀ := hf k₀ (k₁, v) hf0
          subst hp
          simp only [List.filterMap_cons, hf0]
          by_cases hk : k₁ = k
          · subst hk
            simp [hf0]
          · have hk' : ¬ k = k₁ := fun h => hk h.symm
            rw [Obj.get_cons, if_neg hk, ih]
            simp [List.mem_cons, hk']

theorem SyncEngine.mem_allKeys (loc rem : Obj V) (k : String) :
    k ∈ SyncEngine.allKeys loc rem ↔
      (Obj.hasKey loc k = true ∨ Obj.hasKey rem k = true) := by
  unfold SyncEngine.allKeys
  rw [List.mem_append, List.mem_filter]
  rw [← Obj.hasKey_iff_mem_keys, ← Obj.hasKey_iff_mem_keys]
  constructor
  · rintro (h | ⟨h, _⟩)
    · exact Or.inl h
    · exact Or.inr h
  · rintro (h | h)
    · exact Or.inl h
    · by_cases hl : Obj.hasKey loc k = true
      · exact Or.inl hl
      · refine Or.inr ⟨h, ?_⟩
        simp [Bool.not_eq_true] at hl ⊢
        exact hl

/-- Key lookup in the resolver-driven branch of resolveConflicts: for any
key of either snapshot, the resolved value follows the per-field rules of
the code; keys of neither snapshot are absent. -/
theorem SyncEngine.get_resolveConflicts_some (resolver : ConflictContext V → V)
    (lU now : Nat) (loc rem : Obj V) (k : String) :
    Obj.get (SyncEngine.resolveConflicts (some resolver) lU now loc rem) k =
      if k ∈ SyncEngine.allKeys loc rem then
        (match Obj.get loc k, Obj.get rem k with
         | none, none => none
         | none, some rv => some rv
         | some lv, none => some lv
         | some lv, some rv =>
             if lv = rv then some lv
             else some (resolver ⟨lv, rv, k, lU, now⟩))
      else none := by
  unfold SyncEngine.resolveConflicts
  rw [Obj.get_filterMapKeyed]
  · cases hl : Obj.get loc k <;> cases hr : Obj.get rem k <;>
      simp only [hl, hr]
    · simp
    · simp
    · simp
    · split
      · split <;> simp
      · rfl
  · intro k' p hp
    cases hl : Obj.get loc k' <;> cases hr : Obj.get rem k' <;>
      simp only [hl, hr] at hp
    · exact absurd hp (by simp)
    · cases hp; rfl
    · cases hp; rfl
    · split at hp <;> (cases hp; rfl)

/-- Claim C1: with no custom conflict resolver configured, resolveConflicts
returns the shallow merge of the remote snapshot over the local snapshot,
and in particular any field present in both snapshots with differing values
resolves to the remote value. -/
theorem C1_default_conflict_remote_wins (lU now : Nat) (loc rem : Obj V) :
    SyncEngine.resolveConflicts (V := V) none lU now loc rem = Obj.merge loc rem ∧
    (∀ k lv rv, Obj.get loc k = some lv → Obj.get rem k = some rv → lv ≠ rv →
      Obj.get (SyncEngine.resolveConflicts none lU now loc rem) k = some rv) := by
  constructor
  · rfl
  · intro k lv rv hl hr _
    show Obj.get (Obj.merge loc rem) k = some rv
    rw [Obj.get_merge, hr]
    rfl

/-- Witness for C1 at a concrete input: local has x equal to 1, remote has
x equal to 2, and the resolved state carries the remote value 2. -/
theorem C1_default_conflict_remote_wins_witness :
    Obj.get (SyncEngine.resolveConflicts (V := Nat) none 0 0
      [("x", 1)] [("x", 2)]) "x" = some 2 :=
  (C1_default_conflict_remote_wins 0 0 [("x", 1)] [("x", 2)]).2 "x" 1 2
    (by decide) (by decide) (by decide)

/-- Claim C4: with a resolver that always returns the local value of the
conflict context, every conflicting field (present in both snapshots with
differing values) retains its local value, a field absent locally takes the
remote value, a field absent remotely keeps the local value, and a field
with identical values keeps that value. -/
theorem C4_local_resolver_precedence (lU now : Nat) (loc rem : Obj V) :
    (∀ k lv rv, Obj.get loc k = some lv → Obj.get rem k = some rv → lv ≠ rv →
      Obj.get (SyncEngine.resolveConflicts
        (some (fun ctx => ctx.localValue)) lU now loc rem) k = some lv) ∧
    (∀ k rv, Obj.get loc k = none → Obj.get rem k = some rv →
      Obj.get (SyncEngine.resolveConflicts
        (some (fun ctx => ctx.localValue)) lU now loc rem) k = some rv) ∧
    (∀ k lv, Obj.get loc k = some lv → Obj.get rem k = none →
      Obj.get (SyncEngine.resolveConflicts
        (some (fun ctx => ctx.localValue)) lU now loc rem) k = some lv) ∧
    (∀ k v, Obj.get loc k = some v → Obj.get rem k = some v →
      Obj.get (SyncEngine.resolveConflicts
        (some (fun ctx => ctx.localValue)) lU now loc rem) k = some v) := by
  refine ⟨?_, ?_, ?_, ?_⟩
  · intro k lv rv hl hr hne
    have hmem : k ∈ SyncEngine.allKeys loc rem :=
      (SyncEngine.mem_allKeys loc rem k).mpr (Or.inl (by simp [Obj.hasKey, hl]))
    rw [SyncEngine.get_resolveConflicts_some, if_pos hmem]
    simp [hl, hr, hne]
  · intro k rv hl hr
    have hmem : k ∈ SyncEngine.allKeys loc rem :=
      (SyncEngine.mem_allKeys loc rem k).mpr (Or.inr (by simp [Obj.hasKey, hr]))
    rw [SyncEngine.get_resolveConflicts_some, if_pos hmem]
    simp [hl, hr]
  · intro k lv hl hr
    have hmem : k ∈ SyncEngine.allKeys loc rem :=
      (SyncEngine.mem_allKeys loc rem k).mpr (Or.inl (by simp [Obj.hasKey, hl]))
    rw [SyncEngine.get_resolveConflicts_some, if_pos hmem]
    simp [hl, hr]
  · intro k v hl hr
    have hmem : k ∈ SyncEngine.allKeys loc rem :=
      (SyncEngine.mem_allKeys loc rem k).mpr (Or.inl (by simp [Obj.hasKey, hl]))
    rw [SyncEngine.get_resolveConflicts_some, if_pos hmem]
    simp [hl, hr]

/-- Witness for C4 at a concrete input: local is x:1, y:5 and remote is
x:2, z:7; with the local-preferring resolver the resolved state keeps x:1,
takes z:7 and keeps y:5. -/
theorem C4_local_resolver_precedence_witness :
    Obj.get (SyncEngine.resolveConflicts (V := Nat)
      (some (fun ctx => ctx.localValue)) 0 0
      [("x", 1), ("y", 5)] [("x", 2), ("z", 7)]) "x" = some 1 ∧
    Obj.get (SyncEngine.resolveConflicts (V := Nat)
      (some (fun ctx => ctx.localValue)) 0 0
      [("x", 1), ("y", 5)] [("x", 2), ("z", 7)]) "z" = some 7 ∧
    Obj.get (SyncEngine.resolveConflicts (V := Nat)
      (some (fun ctx => ctx.localValue)) 0 0
      [("x", 1), ("y", 5)] [("x", 2), ("z", 7)]) "y" = some 5 :=
  ⟨(C4_local_resolver_precedence 0 0 _ _).1 "x" 1 2
      (by decide) (by decide) (by decide),
   (C4_local_resolver_precedence 0 0 _ _).2.1 "z" 7 (by decide) (by decide),
   (C4_local_resolver_precedence 0 0 _ _).2.2.1 "y" 5 (by decide) (by decide)⟩

/-! Lemmas about StateManager. -/

theorem StateManager.notifyLoop_aux {α : Type} (invoke : α → Except String Unit)
    (l : List α) : ∀ acc : Nat × List String,
    (l.foldl (fun acc cb =>
      match invoke cb with
      | .ok _ => (acc.1 + 1, acc.2)
      | .error e => (acc.1 + 1, acc.2 ++ [e])) acc) =
    (acc.1 + l.length, acc.2 ++ l.filterMap (fun cb =>
      match invoke cb with
      | .ok _ => none
      | .error e => some e)) := by
  induction l with
  | nil => intro acc; simp
  | cons cb rest ih =>
      intro acc
      simp only [List.foldl_cons, List.filterMap_cons]
      cases hcb : invoke cb with
      | ok u =>
          simp only [hcb]
          rw [ih]
          refine Prod.ext ?_ rfl
          simp
          omega
      | error e =>
          simp only [hcb]
          rw [ih]
          refine Prod.ext ?_ ?_
          · simp
            omega
          · simp

/-- The notification loop runs every subscriber (its count equals the
subscriber list length) and logs exactly the errors the callbacks threw, in
order. -/
theorem StateManager.notifyLoop_spec {α : Type} (invoke : α → Except String Unit)
    (subs : List α) :
    StateManager.notifyLoop invoke subs =
      (subs.length, subs.filterMap (fun cb =>
        match invoke cb with
        | .ok _ => none
        | .error e => some e)) := by
  unfold StateManager.notifyLoop
  rw [StateManager.notifyLoop_aux]
  simp

theorem StateManager.updateState_preserves (st : Obj V) (key : String) (value : V)
    (k : String) (h : Obj.hasKey st k = true) :
    Obj.hasKey (StateManager.updateState st key value) k = true := by
  unfold StateManager.updateState
  split
  · exact h
  · rw [Obj.hasKey_insert]
    simp [h]

theorem StateManager.updateMultipleState_preserves (partialObj : Obj V)
    (st : Obj V) (k : String) (h : Obj.hasKey st k = true) :
    Obj.hasKey (StateManager.updateMultipleState st partialObj) k = true := by
  induction partialObj generalizing st with
  | nil => exact h
  | cons p rest ih =>
      show Obj.hasKey (StateManager.updateMultipleState
        (StateManager.updateState st p.1 p.2) rest) k = true
      exact ih _ (StateManager.updateState_preserves st p.1 p.2 k h)

/-- Counterexample to claim C5 as stated: replaceState is a wholesale
replacement of the state object, so a replaceState call whose argument
omits a construction-time field deletes that field. Starting from initial
state with field x, a single replaceState with the empty object leaves a
state in which x is absent. -/
theorem C5_field_retention_counterexample :
    Obj.hasKey (StateManager.applyOps [("x", (0 : Nat))]
      [StateManager.StateOp.replaceState []]) "x" = false := by decide

/-- Claim C5 as amended: every field defined at construction remains present
under any sequence of update, updateMultiple and replaceState operations,
provided each replaceState argument contains every construction-time field
(callers must pass a complete state object); update and updateMultiple alone
can never delete a field. -/
theorem C5_field_retention_amended (initialState : Obj V)
    (ops : List (StateManager.StateOp V))
    (h : ∀ op ∈ ops, ∀ s, op = StateManager.StateOp.replaceState s →
        ∀ k, Obj.hasKey initialState k = true → Obj.hasKey s k = true) :
    ∀ k, Obj.hasKey initialState k = true →
      Obj.hasKey (StateManager.applyOps initialState ops) k = true := by
  have main : ∀ (l : List (StateManager.StateOp V)) (st : Obj V),
      (∀ op ∈ l, ∀ s, op = StateManager.StateOp.replaceState s →
        ∀ k, Obj.hasKey initialState k = true → Obj.hasKey s k = true) →
      (∀ k, Obj.hasKey initialState k = true → Obj.hasKey st k = true) →
      ∀ k, Obj.hasKey initialState k = true →
        Obj.hasKey (StateManager.applyOps st l) k = true := by
    intro l
    induction l with
    | nil => intro st _ hst k hk; exact hst k hk
    | cons op rest ih =>
        intro st hops hst k hk
        show Obj.hasKey (StateManager.applyOps
          (StateManager.applyOp st op) rest) k = true
        refine ih (StateManager.applyOp st op)
          (fun o ho => hops o (List.mem_cons_of_mem op ho)) ?_ k hk
        intro k' hk'
        cases op with
        | update key value =>
            exact StateManager.updateState_preserves st key value k' (hst k' hk')
        | updateMultiple p =>
            exact StateManager.updateMultipleState_preserves p st k' (hst k' hk')
        | replaceState s =>
            exact hops _ (List.mem_cons_self _ _) s rfl k' hk'
  exact main ops initialState h (fun k hk => hk)

/-- Witness for the amended C5 at a concrete input: initial state has field
x; after an update of a new field, a complete-state replaceState and an
updateMultiple, field x is still present. -/
theorem C5_field_retention_amended_witness :
    Obj.hasKey (StateManager.applyOps [("x", (0 : Nat))]
      [StateManager.StateOp.update "y" 1,
       StateManager.StateOp.replaceState [("x", 5), ("y", 1)],
       StateManager.StateOp.updateMultiple [("z", 2)]]) "x" = true := by
  refine C5_field_retention_amended [("x", (0 : Nat))] _ ?_ "x" (by decide)
  intro op hop s heq k hk
  have hx : "x" = k := by
    by_contra hne
    simp [Obj.hasKey, Obj.get, hne] at hk
  subst hx
  simp only [List.mem_cons, List.not_mem_nil, or_false] at hop
  rcases hop with h1 | h1 | h1 <;> subst h1 <;> cases heq
  decide

/-- Claim C7: an update whose value is identity-equal to the current value
of the field is a no-op: the state is unchanged, zero subscriber callbacks
run (per-key or whole-state) and nothing is logged. -/
theorem C7_noop_update (subs : Subscribers V) (st : Obj V) (key : String)
    (v : V) (source : ChangeSource) (h : Obj.get st key = some v) :
    StateManager.update subs st key v source = ⟨st, 0, []⟩ := by
  unfold StateManager.update
  rw [if_pos h]

/-- Witness for C7 at a concrete input: updating x to its current value 3
in the presence of a throwing per-key subscriber and a whole-state
subscriber changes nothing and runs zero callbacks. -/
theorem C7_noop_update_witness :
    StateManager.update (V := Nat)
      ⟨fun _ => [fun _ _ => Except.error "boom"], [fun _ _ _ => Except.ok ()]⟩
      [("x", 3)] "x" 3 ChangeSource.localSource = ⟨[("x", 3)], 0, []⟩ :=
  C7_noop_update _ [("x", 3)] "x" 3 ChangeSource.localSource (by decide)

/-- Claim C8: when some subscriber callback throws during notification of a
genuine change, the write is still applied, every registered subscriber
(per-key for the changed key and whole-state) still runs, and the thrown
errors are caught and logged rather than propagated. -/
theorem C8_subscriber_error_isolation (subs : Subscribers V) (st : Obj V)
    (key : String) (v : V) (source : ChangeSource)
    (hchange : Obj.get st key ≠ some v)
    (hthrow : ∃ cb ∈ subs.keySubs key, ∃ e, cb v source = Except.error e) :
    (StateManager.update subs st key v source).state = Obj.insert st key v ∧
    (StateManager.update subs st key v source).callbacksRun =
      (subs.keySubs key).length + subs.allSubs.length ∧
    (StateManager.update subs st key v source).errorsLogged =
      (subs.keySubs key).filterMap (fun cb =>
        match cb v source with
        | .ok _ => none
        | .error e => some e) ++
      subs.allSubs.filterMap (fun cb =>
        match cb (Obj.insert st key v) [key] source with
        | .ok _ => none
        | .error e => some e) := by
  unfold StateManager.update
  rw [if_neg hchange]
  simp [StateManager.notifyKey, StateManager.notifyAll,
    StateManager.notifyLoop_spec]

/-- Witness for C8 at a concrete input: a throwing per-key subscriber next
to a normal one and a whole-state subscriber; the write lands, all three
callbacks run and exactly the thrown error is logged. -/
theorem C8_subscriber_error_isolation_witness :
    (StateManager.update (V := Nat)
      ⟨fun _ => [fun _ _ => Except.error "boom", fun _ _ => Except.ok ()],
       [fun _ _ _ => Except.ok ()]⟩
      [("x", 0)] "x" 1 ChangeSource.localSource).state = [("x", 1)] ∧
    (StateManager.update (V := Nat)
      ⟨fun _ => [fun _ _ => Except.error "boom", fun _ _ => Except.ok ()],
       [fun _ _ _ => Except.ok ()]⟩
      [("x", 0)] "x" 1 ChangeSource.localSource).callbacksRun = 3 ∧
    (StateManager.update (V := Nat)
      ⟨fun _ => [fun _ _ => Except.error "boom", fun _ _ => Except.ok ()],
       [fun _ _ _ => Except.ok ()]⟩
      [("x", 0)] "x" 1 ChangeSource.localSource).errorsLogged = ["boom"] := by
  have h := C8_subscriber_error_isolation (V := Nat)
    ⟨fun _ => [fun _ _ => Except.error "boom", fun _ _ => Except.ok ()],
     [fun _ _ _ => Except.ok ()]⟩
    [("x", 0)] "x" 1 ChangeSource.localSource
    (by decide)
    ⟨fun _ _ => Except.error "boom", List.mem_cons_self _ _, "boom", rfl⟩
  refine ⟨?_, ?_, ?_⟩
  · rw [h.1]; rfl
  · rw [h.2.1]; rfl
  · rw [h.2.2]; rfl

/-! Lemmas about PersistQueue. -/

theorem PersistQueue.foldl_queue_isFlushing (ps : List (Obj V)) (st : PersistQueue.PQState V) :
    (ps.foldl PersistQueue.queue st).isFlushing = st.isFlushing := by
  induction ps generalizing st with
  | nil => rfl
  | cons p rest ih => exact ih (PersistQueue.queue st p)

/-- After a nonempty burst of queue calls, the pending buffer is the left
fold of object spread over the queued partials, starting from whatever was
pending before. -/
theorem PersistQueue.foldl_queue_pendingData (ps : List (Obj V))
    (st : PersistQueue.PQState V) (hne : ps ≠ []) :
    (ps.foldl PersistQueue.queue st).pendingData =
      some (ps.foldl Obj.merge (st.pendingData.getD [])) := by
  induction ps generalizing st with
  | nil => exact absurd rfl hne
  | cons p rest ih =>
      show (rest.foldl PersistQueue.queue (PersistQueue.queue st p)).pendingData = _
      by_cases h : rest = []
      · subst h
        rfl
      · rw [ih (PersistQueue.queue st p) h]
        rfl

/-- If every attempt up to the remaining budget fails, the retry loop makes
exactly that many attempts, performs no write and reports the error of the
final attempt. -/
theorem PersistQueue.flushLoop_all_fail (outcomes : Nat → Option String) (w : Obj V) :
    ∀ (rem attempt : Nat) (lastE : Option String),
      (∀ i, i < rem → (outcomes (attempt + i)).isSome = true) →
      PersistQueue.flushLoop outcomes w attempt rem lastE =
        (.failure (if rem = 0 then lastE else outcomes (attempt + rem - 1)), rem) := by
  intro rem
  induction rem with
  | zero => intro attempt lastE _; rfl
  | succ r ih =>
      intro attempt lastE h
      have h0 : (outcomes attempt).isSome = true := by
        have := h 0 (by omega)
        simpa using this
      obtain ⟨e, he⟩ := Option.isSome_iff_exists.mp h0
      have hrec : ∀ i, i < r → (outcomes (attempt + 1 + i)).isSome = true := by
        intro i hi
        have := h (i + 1) (by omega)
        have harith : attempt + (i + 1) = attempt + 1 + i := by omega
        rwa [harith] at this
      simp only [PersistQueue.flushLoop, he]
      rw [ih (attempt + 1) (some e) hrec]
      by_cases hr : r = 0
      · subst hr
        simp [he]
      · have harith : attempt + 1 + r - 1 = attempt + (r + 1) - 1 := by omega
        simp [hr, harith]

/-- Claim C2: a nonempty burst of queue calls with pairwise-disjoint fields,
issued before any flush completes, followed by one flush whose first remote
write attempt succeeds, performs exactly one remote write (queue itself
never writes), and the value written under the state key is the shallow
merge of all the queued partials, in queue order, over the value previously
stored at the state key. -/
theorem C2_coalescing (maxRetries : Nat) (hasOnError : Bool) (remote : Obj V)
    (ps : List (Obj V)) (outcomes : Nat → Option String)
    (hN : ps ≠ [])
    (hdisj : ps.Pairwise (fun p q => p.all (fun kv => !(Obj.hasKey q kv.1)) = true))
    (hmax : 0 < maxRetries)
    (hfirst : outcomes 0 = none) :
    (PersistQueue.flush maxRetries hasOnError
        (ps.foldl PersistQueue.queue PersistQueue.initial)
        remote outcomes none).2.writes = [ps.foldl Obj.merge remote] ∧
    (PersistQueue.flush maxRetries hasOnError
        (ps.foldl PersistQueue.queue PersistQueue.initial)
        remote outcomes none).2.writes.length = 1 ∧
    (PersistQueue.flush maxRetries hasOnError
        (ps.foldl PersistQueue.queue PersistQueue.initial)
        remote outcomes none).2.attempts = 1 := by
  have hpd : (ps.foldl PersistQueue.queue PersistQueue.initial).pendingData =
      some (ps.foldl Obj.merge []) :=
    PersistQueue.foldl_queue_pendingData ps PersistQueue.initial hN
  have hfl : (ps.foldl PersistQueue.queue PersistQueue.initial).isFlushing = false :=
    PersistQueue.foldl_queue_isFlushing ps PersistQueue.initial
  obtain ⟨m, rfl⟩ : ∃ m, maxRetries = m + 1 := by
    cases maxRetries with
    | zero => omega
    | succ m => exact ⟨m, rfl⟩
  have hmerged : Obj.merge remote (ps.foldl Obj.merge []) = ps.foldl Obj.merge remote := by
    rw [Obj.merge_foldl, Obj.merge_nil_right]
  simp [PersistQueue.flush, hpd, hfl, PersistQueue.flushLoop, hfirst, hmerged]

/-- Witness for C2 at a concrete input: queueing a:1,b:2 then c:3 over a
remote store holding a:0,d:4 and flushing writes exactly the merged object
a:1,d:4,b:2,c:3 once. -/
theorem C2_coalescing_witness :
    (PersistQueue.flush 3 false
        ([[("a", 1), ("b", 2)], [("c", 3)]].foldl PersistQueue.queue
          (PersistQueue.initial (V := Nat)))
        [("a", 0), ("d", 4)] (fun _ => none) none).2.writes =
      [[("a", 1), ("d", 4), ("b", 2), ("c", 3)]] := by
  have h := (C2_coalescing 3 false [("a", 0), ("d", 4)]
    [[("a", 1), ("b", 2)], [("c", 3)]] (fun _ => none)
    (by decide) (by decide) (by decide) rfl).1
  rw [h]
  decide

/-- Claim C3: if every one of the maxRetries attempts of a flush fails, the
flush makes exactly maxRetries attempts, writes nothing, invokes onError
exactly once with the final error when configured (and logs it exactly once
otherwise), and afterwards hasPending is true with the pending buffer equal
to the failed snapshot spread under the data queued during the flush, so no
queued write is lost. -/
theorem C3_retry_exhaustion (maxRetries : Nat) (hasOnError : Bool)
    (st : PersistQueue.PQState V) (d : Obj V) (remote : Obj V)
    (outcomes : Nat → Option String) (queuedDuring : Option (Obj V))
    (hpd : st.pendingData = some d) (hfl : st.isFlushing = false)
    (hmax : 0 < maxRetries)
    (hfail : ∀ i, i < maxRetries → (outcomes i).isSome = true) :
    (PersistQueue.flush maxRetries hasOnError st remote outcomes
        queuedDuring).2.attempts = maxRetries ∧
    (PersistQueue.flush maxRetries hasOnError st remote outcomes
        queuedDuring).2.writes = [] ∧
    (PersistQueue.flush maxRetries hasOnError st remote outcomes
        queuedDuring).2.onErrorCalls =
      (if hasOnError then [outcomes (maxRetries - 1)] else []) ∧
    (PersistQueue.flush maxRetries hasOnError st remote outcomes
        queuedDuring).2.logCalls =
      (if hasOnError then [] else [outcomes (maxRetries - 1)]) ∧
    PersistQueue.hasPending
      (PersistQueue.flush maxRetries hasOnError st remote outcomes
        queuedDuring).1 = true ∧
    (PersistQueue.flush maxRetries hasOnError st remote outcomes
        queuedDuring).1.pendingData =
      some (Obj.merge d (queuedDuring.getD [])) := by
  have hloop := PersistQueue.flushLoop_all_fail outcomes (Obj.merge remote d)
    maxRetries 0 none (by simpa using hfail)
  have hmz : maxRetries ≠ 0 := by omega
  rw [if_neg hmz] at hloop
  simp only [Nat.zero_add] at hloop
  simp [PersistQueue.flush, hpd, hfl, hloop, PersistQueue.hasPending]

/-- Witness for C3 at a concrete input: a pending buffer a:1, three failing
attempts, queued data b:2 arriving during the flush; three attempts are
made, the error is reported once, and the buffer afterwards holds a:1,b:2. -/
theorem C3_retry_exhaustion_witness :
    (PersistQueue.flush 3 true
        (⟨some [("a", (1 : Nat))], false⟩) [] (fun _ => some "err")
        (some [("b", 2)])).2.attempts = 3 ∧
    (PersistQueue.flush 3 true
        (⟨some [("a", (1 : Nat))], false⟩) [] (fun _ => some "err")
        (some [("b", 2)])).2.onErrorCalls = [some "err"] ∧
    PersistQueue.hasPending
      (PersistQueue.flush 3 true
        (⟨some [("a", (1 : Nat))], false⟩) [] (fun _ => some "err")
        (some [("b", 2)])).1 = true ∧
    (PersistQueue.flush 3 true
        (⟨some [("a", (1 : Nat))], false⟩) [] (fun _ => some "err")
        (some [("b", 2)])).1.pendingData = some [("a", 1), ("b", 2)] := by
  have h := C3_retry_exhaustion 3 true (⟨some [("a", (1 : Nat))], false⟩)
    [("a", 1)] [] (fun _ => some "err") (some [("b", 2)])
    rfl rfl (by omega) (fun i _ => rfl)
  refine ⟨h.1, ?_, h.2.2.2.2.1, ?_⟩
  · rw [h.2.2.1]
    rfl
  · rw [h.2.2.2.2.2]
    decide

/-! Lemmas about the SyncEngine event machine. -/

/-- While the echo-suppression guard is set, one event other than a firing
reset timeout never calls replaceState, never changes the state, and leaves
the guard set. -/
theorem SyncEngine.step_suppressed (onConflict : Option (ConflictContext V → V))
    (storageKey : String) (eng : SyncEngineState) (st : Obj V) (ev : SyncEvent V)
    (hg : eng.isApplyingRemote = true)
    (hne : ev ≠ SyncEvent.suppressionTimerFires) :
    (SyncEngine.step onConflict storageKey eng st ev).replaceCalls = [] ∧
    (SyncEngine.step onConflict storageKey eng st ev).state = st ∧
    (SyncEngine.step onConflict storageKey eng st ev).engine.isApplyingRemote = true := by
  cases ev with
  | storageChanged changes areaName now =>
      cases hL : eng.hasListener with
      | false => simp [SyncEngine.step, hL, hg]
      | true =>
          by_cases hA : areaName = "sync"
          · cases hch : Obj.get changes storageKey with
            | none => simp [SyncEngine.step, hL, hA, hch, hg]
            | some c => simp [SyncEngine.step, hL, hA, hch, hg]
          · simp [SyncEngine.step, hL, hA, hg]
  | suppressionTimerFires => exact absurd rfl hne
  | markLocalWrite => simp [SyncEngine.step]
  | updateLocalMeta now => simp [SyncEngine.step, hg]

theorem SyncEngine.foldTrace_suppressed (onConflict : Option (ConflictContext V → V))
    (storageKey : String) (events : List (SyncEvent V)) :
    ∀ acc : SyncStepResult V,
      acc.engine.isApplyingRemote = true →
      SyncEvent.suppressionTimerFires ∉ events →
      ((events.foldl (fun acc ev =>
        let r := SyncEngine.step onConflict storageKey acc.engine acc.state ev
        ⟨r.engine, r.state, acc.replaceCalls ++ r.replaceCalls,
          acc.scheduledResets ++ r.scheduledResets⟩) acc).replaceCalls =
            acc.replaceCalls ∧
       (events.foldl (fun acc ev =>
        let r := SyncEngine.step onConflict storageKey acc.engine acc.state ev
        ⟨r.engine, r.state, acc.replaceCalls ++ r.replaceCalls,
          acc.scheduledResets ++ r.scheduledResets⟩) acc).state = acc.state ∧
       (events.foldl (fun acc ev =>
        let r := SyncEngine.step onConflict storageKey acc.engine acc.state ev
        ⟨r.engine, r.state, acc.replaceCalls ++ r.replaceCalls,
          acc.scheduledResets ++ r.scheduledResets⟩) acc).engine.isApplyingRemote
          = true) := by
  induction events with
  | nil => intro acc hg _; exact ⟨rfl, rfl, hg⟩
  | cons ev rest ih =>
      intro acc hg ht
      have hne : ev ≠ SyncEvent.suppressionTimerFires := by
        intro h
        exact ht (h ▸ List.mem_cons_self _ _)
      have htr : SyncEvent.suppressionTimerFires ∉ rest := by
        intro h
        exact ht (List.mem_cons_of_mem _ h)
      have hstep := SyncEngine.step_suppressed onConflict storageKey
        acc.engine acc.state ev hg hne
      simp only [List.foldl_cons]
      have hrec := ih ⟨(SyncEngine.step onConflict storageKey acc.engine acc.state ev).engine,
        (SyncEngine.step onConflict storageKey acc.engine acc.state ev).state,
        acc.replaceCalls ++
          (SyncEngine.step onConflict storageKey acc.engine acc.state ev).replaceCalls,
        acc.scheduledResets ++
          (SyncEngine.step onConflict storageKey acc.engine acc.state ev).scheduledResets⟩
        hstep.2.2 htr
      refine ⟨?_, ?_, hrec.2.2⟩
      · rw [hrec.1]
        simp [hstep.1]
      · rw [hrec.2.1]
        simp [hstep.2.1]

/-- Claim C6: markLocalWrite sets the echo-suppression guard and schedules
its reset after the fixed 1000ms delay; as long as the guard remains set
(no scheduled reset has fired), every subsequent event — in particular
every storage-change notification, including one carrying the very value
just written — is ignored: no replaceState with source remote happens and
the StateManager state is unchanged. -/
theorem C6_echo_suppression (onConflict : Option (ConflictContext V → V))
    (storageKey : String) (eng : SyncEngineState) (st : Obj V)
    (events : List (SyncEvent V))
    (ht : SyncEvent.suppressionTimerFires ∉ events) :
    (SyncEngine.step onConflict storageKey eng st
        SyncEvent.markLocalWrite).engine.isApplyingRemote = true ∧
    (SyncEngine.step onConflict storageKey eng st
        SyncEvent.markLocalWrite).scheduledResets = [1000] ∧
    (SyncEngine.step onConflict storageKey eng st
        SyncEvent.markLocalWrite).state = st ∧
    (SyncEngine.runEvents onConflict storageKey
        (SyncEngine.step onConflict storageKey eng st
          SyncEvent.markLocalWrite).engine st events).replaceCalls = [] ∧
    (SyncEngine.runEvents onConflict storageKey
        (SyncEngine.step onConflict storageKey eng st
          SyncEvent.markLocalWrite).engine st events).state = st := by
  have h := SyncEngine.foldTrace_suppressed onConflict storageKey events
    ⟨(SyncEngine.step onConflict storageKey eng st
        SyncEvent.markLocalWrite).engine, st, [], []⟩ rfl ht
  exact ⟨rfl, rfl, rfl, h.1, h.2.1⟩

/-- Witness for C6 at a concrete input: after markLocalWrite, a sync-area
notification for the storage key carrying the very value just written is
ignored: no replaceState happens and the state stays the same. -/
theorem C6_echo_suppression_witness :
    (SyncEngine.runEvents (V := Nat) none "levity:state"
        (SyncEngine.step (V := Nat) none "levity:state"
          ⟨false, true, 0⟩ [("x", 1)] SyncEvent.markLocalWrite).engine
        [("x", 1)]
        [SyncEvent.storageChanged
          [("levity:state", ⟨none, some [("x", 1)]⟩)] "sync" 5]).replaceCalls = [] ∧
    (SyncEngine.runEvents (V := Nat) none "levity:state"
        (SyncEngine.step (V := Nat) none "levity:state"
          ⟨false, true, 0⟩ [("x", 1)] SyncEvent.markLocalWrite).engine
        [("x", 1)]
        [SyncEvent.storageChanged
          [("levity:state", ⟨none, some [("x", 1)]⟩)] "sync" 5]).state = [("x", 1)] := by
  have h := C6_echo_suppression (V := Nat) none "levity:state"
    ⟨false, true, 0⟩ [("x", 1)]
    [SyncEvent.storageChanged
      [("levity:state", ⟨none, some [("x", 1)]⟩)] "sync" 5]
    (by decide)
  exact ⟨h.2.2.2.1, h.2.2.2.2⟩

/-- Claim C9: getQuota always reports the fixed chrome.storage.sync
capacity as the total and computes the percentage exactly as
round(used/total times 1000)/10; checkQuota warns exactly when the
percentage reaches the threshold (given a configured callback and a
successful byte read), does nothing without a callback, swallows any error
of the byte read, the default threshold constant is 80, and both write
paths of the facade and a successful init perform the quota check. -/
theorem C9_quota_model (used : Nat) (thr : ℚ) (e : String) :
    (getQuota used).total = CHROME_SYNC_QUOTA ∧
    (getQuota used).percent =
      ((round (((used : ℚ) / (CHROME_SYNC_QUOTA : ℚ)) * 1000) : ℤ) : ℚ) / 10 ∧
    checkQuota true thr (Except.ok used) =
      (if (getQuota used).percent ≥ thr then [getQuota used] else []) ∧
    checkQuota false thr (Except.ok used) = [] ∧
    (∀ b : Bool, checkQuota b thr (Except.error e) = []) ∧
    DEFAULT_QUOTA_WARNING = 80 ∧
    (∀ (subs : Subscribers V) (maxRetries : Nat) (hasOnError hasW : Bool)
        (st : createStore.StoreState V) (key : String) (value : V) (now : Nat)
        (remote : Obj V) (outcomes : Nat → Option String)
        (queuedDuring : Option (Obj V)) (bytesInUse : Except String Nat),
      (createStore.set subs maxRetries hasOnError hasW thr st key value now
          remote outcomes queuedDuring bytesInUse).2.2.2 =
        checkQuota hasW thr bytesInUse) ∧
    (∀ (maxRetries : Nat) (hasOnError hasW : Bool)
        (st : createStore.StoreState V) (partialObj : Obj V) (now : Nat)
        (remote : Obj V) (outcomes : Nat → Option String)
        (queuedDuring : Option (Obj V)) (bytesInUse : Except String Nat),
      (createStore.setAll maxRetries hasOnError hasW thr st partialObj now
          remote outcomes queuedDuring bytesInUse).2.2 =
        checkQuota hasW thr bytesInUse) ∧
    (∀ (initialState : Obj V) (eng : SyncEngineState)
        (stored : Option (Obj V)),
      (createStore.init initialState eng (Except.ok stored)).quotaChecks = 1) := by
  refine ⟨rfl, ?_, ?_, rfl, ?_, rfl, fun _ _ _ _ _ _ _ _ _ _ _ _ => rfl,
    fun _ _ _ _ _ _ _ _ _ _ => rfl, ?_⟩
  · show ((round (((used : ℚ) / (CHROME_SYNC_QUOTA : ℚ)) * 100 * 10) : ℤ) : ℚ) / 10 = _
    have harg : ((used : ℚ) / (CHROME_SYNC_QUOTA : ℚ)) * 100 * 10 =
        ((used : ℚ) / (CHROME_SYNC_QUOTA : ℚ)) * 1000 := by ring
    rw [harg]
  · simp [checkQuota]
  · intro b
    cases b <;> simp [checkQuota]
  · intro initialState eng stored
    cases stored <;> rfl

/-- Claim C10: when the initial storage read inside init throws, the store
still becomes ready with the default initial state, the engine is left
untouched so no change listener is registered, no quota check runs, and a
subsequent storage-change notification dispatched to the unstarted engine
is not processed at all. -/
theorem C10_init_read_failure (initialState : Obj V) (eng : SyncEngineState)
    (e : String) (hL : eng.hasListener = false) :
    (createStore.init initialState eng (Except.error e)).isReady = true ∧
    (createStore.init initialState eng (Except.error e)).state = initialState ∧
    (createStore.init initialState eng (Except.error e)).engine = eng ∧
    (createStore.init initialState eng (Except.error e)).quotaChecks = 0 ∧
    (∀ (onConflict : Option (ConflictContext V → V)) (storageKey : String)
        (st : Obj V) (changes : List (String × StorageChange V))
        (areaName : String) (now : Nat),
      SyncEngine.step onConflict storageKey
          (createStore.init initialState eng (Except.error e)).engine st
          (SyncEvent.storageChanged changes areaName now) =
        ⟨(createStore.init initialState eng (Except.error e)).engine, st, [], []⟩) := by
  refine ⟨rfl, rfl, rfl, rfl, ?_⟩
  intro onConflict storageKey st changes areaName now
  show SyncEngine.step onConflict storageKey eng st
      (SyncEvent.storageChanged changes areaName now) = ⟨eng, st, [], []⟩
  simp [SyncEngine.step, hL]

/-- Witness for C10 at a concrete input: a failing initial read over the
default state x:0 with an unstarted engine leaves the store ready, with the
defaults, and with no listener registered. -/
theorem C10_init_read_failure_witness :
    (createStore.init (V := Nat) [("x", 0)] ⟨false, false, 0⟩
        (Except.error "boom")).isReady = true ∧
    (createStore.init (V := Nat) [("x", 0)] ⟨false, false, 0⟩
        (Except.error "boom")).state = [("x", 0)] ∧
    (createStore.init (V := Nat) [("x", 0)] ⟨false, false, 0⟩
        (Except.error "boom")).engine.hasListener = false := by
  have h := C10_init_read_failure (V := Nat) [("x", 0)] ⟨false, false, 0⟩
    "boom" rfl
  exact ⟨h.1, h.2.1, by rw [h.2.2.1]⟩

end Levity
